import Mathlib

/-!
Shallow embedding of the afma-whatsapp-webhook repository core
(src/app.py, src/send_campaign.py, src/salesforce_client.py):
the conversation-to-case correlator with its 2-hour active window,
the in-memory message history, the webhook event dispatch with its
delivery-receipt price branch, and the campaign batch runner with
its placeholder sanitizer and cost accounting.

Conventions of the embedding:
* Python values that may be `None` are `Option _`; Python string
  truthiness (`if not s`) is `pyTruthy` (false for `None` and `""`).
* Machine time is not modelled; timestamps are parsed, as in the code,
  from Infobip strings into microseconds since the Unix epoch (`Int`).
* Money amounts (Python floats) are modelled as rationals.
* Network calls are external collaborators: their outcomes are
  explicit parameters (`Except Unit _` for calls that can raise).
-/

/-- Python truthiness of an optional string: `None` and `""` are falsy. -/
def pyTruthy : Option String → Bool
  | none => false
  | some s => s ≠ ""

/-- Python `a or b` on two optional strings: the first operand when truthy,
otherwise the second operand unchanged. -/
def pyOr (a b : Option String) : Option String :=
  if pyTruthy a then a else b

/-- Unicode whitespace in the sense of CPython (`str.isspace`, the pattern
class backslash-s on `str` patterns, and the default of `str.strip` all use
the same `Py_UNICODE_ISSPACE` table). -/
def pyIsSpace (c : Char) : Bool :=
  let n := c.toNat
  decide ((0x09 ≤ n ∧ n ≤ 0x0D) ∨ (0x1C ≤ n ∧ n ≤ 0x1F) ∨ n = 0x20 ∨
    n = 0x85 ∨ n = 0xA0 ∨ n = 0x1680 ∨ (0x2000 ≤ n ∧ n ≤ 0x200A) ∨
    n = 0x2028 ∨ n = 0x2029 ∨ n = 0x202F ∨ n = 0x205F ∨ n = 0x3000)

/-- One step of `send_campaign.clean_placeholder`: the three successive
single-character `str.replace` calls (newline, carriage return, tab, each
to a space) compose into one character map because the three targets are
distinct and the replacement is not itself a target. -/
def replaceCtl (c : Char) : Char :=
  if c = '\n' ∨ c = '\r' ∨ c = '\t' then ' ' else c

/-- The first character, when any, is whitespace. -/
def headSpace (l : List Char) : Bool :=
  match l.head? with
  | none => false
  | some c => pyIsSpace c

/-- Single pass behind `collapseWs`.  A whitespace character followed by
further whitespace is swallowed (the run continues, noted by the flag);
the last character of a swallowed run becomes the single replacement
space; any other character, including an isolated whitespace character,
is kept as it is. -/
def collapseGo : Bool → List Char → List Char
  | _, [] => []
  | inRun, c :: cs =>
    if pyIsSpace c && headSpace cs then collapseGo true cs
    else if inRun && pyIsSpace c then ' ' :: collapseGo false cs
    else c :: collapseGo false cs

/-- CPython `re.sub` of the pattern "two or more whitespace" with a single
space: each maximal run of at least two whitespace characters is replaced
by one ASCII space; an isolated whitespace character is left unchanged. -/
def collapseWs (l : List Char) : List Char := collapseGo false l

/-- Removal of a maximal whitespace suffix (the right half of `str.strip`). -/
def dropTrailingWs : List Char → List Char
  | [] => []
  | c :: cs =>
    let r := dropTrailingWs cs
    if r.isEmpty ∧ pyIsSpace c then [] else c :: r

/-- Python `str.strip()` with no arguments: remove the maximal whitespace
prefix and suffix. -/
def pyStripChars (l : List Char) : List Char :=
  dropTrailingWs (l.dropWhile pyIsSpace)

/-- Python `str.strip()` on a string. -/
def pyStrip (s : String) : String :=
  String.mk (pyStripChars s.data)

/-- Embedding of `send_campaign.clean_placeholder`: the falsy guard
returning the empty string, the three replaces, the whitespace-run
collapse, and the final strip. -/
def clean_placeholder (value : String) : String :=
  if value = "" then ""
  else String.mk (pyStripChars (collapseWs (value.data.map replaceCtl)))

/-- Absence of two adjacent whitespace characters in a character list:
no element is whitespace while the next one also is. -/
def noDoubleWs : List Char → Bool
  | [] => true
  | c :: cs => (!(pyIsSpace c && headSpace cs)) && noDoubleWs cs

/-- The final character, when any, is whitespace. -/
def lastSpace (l : List Char) : Bool :=
  match l.getLast? with
  | none => false
  | some c => pyIsSpace c

/-- A character list neither starts nor ends with whitespace. -/
def trimmedEnds (l : List Char) : Bool :=
  !headSpace l && !lastSpace l

/-- Absence of the three control characters the sanitizer replaces. -/
def noCtl (l : List Char) : Bool :=
  l.all fun c => !(c == '\n' || c == '\r' || c == '\t')

/-!
Infobip timestamp parsing (`app.parse_infobip_timestamp`), embedding
CPython `datetime.strptime` with the fixed format
year-month-day, literal T, hour:minute:second, dot, fraction, utc offset.
The strptime regular expression is case-insensitive (so the literal T also
matches lowercase t, while the Z alternative of the offset directive is
explicitly case-sensitive), the whole input must be consumed, and the
resulting aware datetime is validated by the datetime constructor
(calendar-valid day, seconds at most 59, offset strictly inside one day).
The parsed instant is expressed in microseconds since the Unix epoch,
which is exactly the order aware datetimes compare in.
-/

/-- Decimal digit test. -/
def isDigitCh (c : Char) : Bool := '0' ≤ c ∧ c ≤ '9'

/-- Value of a decimal digit character. -/
def digitVal (c : Char) : Nat := c.toNat - '0'.toNat

/-- Exactly `n` leading digits, returning their value and the rest. -/
def parseNDigits : Nat → List Char → Option (Nat × List Char)
  | 0, cs => some (0, cs)
  | n + 1, c :: cs =>
    if isDigitCh c then
      match parseNDigits n cs with
      | some (v, rest) => some (digitVal c * 10 ^ n + v, rest)
      | none => none
    else none
  | _ + 1, [] => none

/-- One or two leading digits, greedily.  For the numeric strptime
directives used here (month, day, hour, minute, second) the greedy
two-digit read followed by a range check is extensionally the same as the
alternation in the CPython strptime regular expression, because a rejected
second digit could never match the literal separator that follows. -/
def parse12 : List Char → Option (Nat × List Char)
  | c1 :: c2 :: rest =>
    if isDigitCh c1 then
      if isDigitCh c2 then some (digitVal c1 * 10 + digitVal c2, rest)
      else some (digitVal c1, c2 :: rest)
    else none
  | [c1] => if isDigitCh c1 then some (digitVal c1, []) else none
  | [] => none

/-- The fraction directive: one to six leading digits, greedily, scaled to
microseconds by right-padding with zeros. -/
def parseFrac (cs : List Char) : Option (Nat × List Char) :=
  let ds := (cs.takeWhile isDigitCh).take 6
  if ds.isEmpty then none
  else
    let v := ds.foldl (fun acc c => acc * 10 + digitVal c) 0
    some (v * 10 ^ (6 - ds.length), cs.drop ds.length)

/-- Literal separator. -/
def expectCh (c : Char) : List Char → Option (List Char)
  | c' :: rest => if c' = c then some rest else none
  | [] => none

/-- Optional seconds (and fractional seconds) part of the utc offset
directive: an optional colon, two digits up to 59, then optionally a dot
and one to six fraction digits.  Returns the extra offset in microseconds.
Failure of the whole group restores the input (regex backtracking). -/
def parseTzSeconds (cs : List Char) : Option (Int × List Char) :=
  let afterColon := match cs with
    | ':' :: rest => rest
    | _ => cs
  match parseNDigits 2 afterColon with
  | some (ss, rest) =>
    if ss ≤ 59 then
      match rest with
      | '.' :: rest2 =>
        match parseFrac rest2 with
        | some (micro, rest3) => some ((ss : Int) * 1000000 + micro, rest3)
        | none => some ((ss : Int) * 1000000, rest)
      | _ => some ((ss : Int) * 1000000, rest)
    else none
  | none => none

/-- The utc offset directive: the case-sensitive literal Z, or a sign, two
hour digits, an optional colon, two minute digits up to 59, and an optional
seconds group.  Returns the offset in microseconds. -/
def parseTz : List Char → Option (Int × List Char)
  | 'Z' :: rest => some (0, rest)
  | c :: rest =>
    if c = '+' ∨ c = '-' then
      match parseNDigits 2 rest with
      | some (hh, rest1) =>
        let afterColon := match rest1 with
          | ':' :: r => r
          | _ => rest1
        match parseNDigits 2 afterColon with
        | some (mm, rest2) =>
          if mm ≤ 59 then
            let base : Int := (hh : Int) * 3600000000 + (mm : Int) * 60000000
            let withSec : Int × List Char :=
              match parseTzSeconds rest2 with
              | some (extra, rest3) => (base + extra, rest3)
              | none => (base, rest2)
            some (if c = '-' then -withSec.1 else withSec.1, withSec.2)
          else none
        | none => none
      | none => none
    else none
  | [] => none

/-- Gregorian leap year. -/
def isLeapYear (y : Nat) : Bool := y % 4 = 0 ∧ (y % 100 ≠ 0 ∨ y % 400 = 0)

/-- Length of a month. -/
def daysInMonth (y m : Nat) : Nat :=
  if m = 2 then (if isLeapYear y then 29 else 28)
  else if m = 4 ∨ m = 6 ∨ m = 9 ∨ m = 11 then 30
  else 31

/-- Days from the Unix epoch to a civil date (Howard Hinnant computation;
the year is at least 1, so every intermediate quantity is a natural). -/
def daysFromCivil (y m d : Nat) : Int :=
  let y' := if m ≤ 2 then y - 1 else y
  let era := y' / 400
  let yoe := y' - era * 400
  let mp := if m > 2 then m - 3 else m + 9
  let doy := (153 * mp + 2) / 5 + (d - 1)
  let doe := yoe * 365 + yoe / 4 - yoe / 100 + doy
  (era * 146097 + doe : Int) - 719468

/-- Microseconds since the Unix epoch of an aware civil instant. -/
def epochMicros (y mo d h mi s micro : Nat) (offMicros : Int) : Int :=
  (daysFromCivil y mo d * 86400 + ((h * 3600 + mi * 60 + s : Nat) : Int)) * 1000000
    + (micro : Int) - offMicros

/-- The literal T of the format, matched case-insensitively because
strptime compiles its regular expression with the ignore-case flag. -/
def expectT : List Char → Option (List Char)
  | c :: rest => if c = 'T' ∨ c = 't' then some rest else none
  | [] => none

/-- Date directives of the format: four year digits, a dash, the month,
a dash, the day, with the range checks of the strptime alternations. -/
def parseDate (cs : List Char) : Option (Nat × Nat × Nat × List Char) := do
  let (y, cs) ← parseNDigits 4 cs
  let cs ← expectCh '-' cs
  let (mo, cs) ← parse12 cs
  guard (1 ≤ mo ∧ mo ≤ 12)
  let cs ← expectCh '-' cs
  let (d, cs) ← parse12 cs
  guard (1 ≤ d ∧ d ≤ 31)
  some (y, mo, d, cs)

/-- Time directives of the format: hour, colon, minute, colon, second,
dot, fraction, with the range checks of the strptime alternations (the
second directive admits leap seconds up to 61 at this stage). -/
def parseTime (cs : List Char) : Option (Nat × Nat × Nat × Nat × List Char) := do
  let (h, cs) ← parse12 cs
  guard (h ≤ 23)
  let cs ← expectCh ':' cs
  let (mi, cs) ← parse12 cs
  guard (mi ≤ 59)
  let cs ← expectCh ':' cs
  let (sec, cs) ← parse12 cs
  guard (sec ≤ 61)
  let cs ← expectCh '.' cs
  let (micro, cs) ← parseFrac cs
  some (h, mi, sec, micro, cs)

/-- CPython strptime of the fixed Infobip format on a whole string:
the date, the literal T, the time, the utc offset; the whole input must
be consumed (unconverted data raises), and the aware datetime constructor
then validates the calendar day, rejects leap seconds, and requires the
offset to lie strictly inside one day. -/
def strptimeInfobip (s : String) : Option Int := do
  let (y, mo, d, cs) ← parseDate s.data
  let cs ← expectT cs
  let (h, mi, sec, micro, cs) ← parseTime cs
  let (offMicros, cs) ← parseTz cs
  guard cs.isEmpty
  guard (1 ≤ y ∧ d ≤ daysInMonth y mo ∧ sec ≤ 59)
  guard (-86400000000 < offMicros ∧ offMicros < 86400000000)
  some (epochMicros y mo d h mi sec micro offMicros)

/-- Embedding of `app.parse_infobip_timestamp`: the falsy guard (either a
missing value or the empty string) yields no instant, and any strptime
failure is caught and yields no instant. -/
def parse_infobip_timestamp (ts : Option String) : Option Int :=
  match ts with
  | none => none
  | some s => if s = "" then none else strptimeInfobip s

/-!
In-memory stores of app.py.  `MESSAGE_STORE` maps a phone key to the list
of stored inbound entries (append-only), `CASE_STORE` maps a phone key to
the single current case record.  Keys are the Python values the webhook
passes, which may be `None`.
-/

/-- One entry of `MESSAGE_STORE`, as built by `app.store_in_memory`. -/
structure Entry where
  msgType : Option String
  text : Option String
  docUrl : Option String
  timestamp : Option String
deriving DecidableEq

/-- The `MESSAGE_STORE` dictionary; a missing key reads as the empty list,
matching the `dict.get` with an empty default. -/
def MessageStore := Option String → List Entry

/-- One value of `CASE_STORE`, as built by `app.get_case_for_phone`. -/
structure CaseRec where
  case_id : String
  last_ts : Option String
deriving DecidableEq

/-- The `CASE_STORE` dictionary. -/
def CaseStore := Option String → Option CaseRec

/-- The two-hour active window of app.py, in microseconds. -/
def CASE_WINDOW_MICROS : Int := 7200000000

/-- Embedding of `app.has_active_window`: false when no previous message
is stored for the phone, when the current timestamp does not parse, or
when the last stored timestamp does not parse; otherwise the signed
difference between the two instants is compared with the window. -/
def has_active_window (store : MessageStore) (phone currentTs : Option String) : Bool :=
  match (store phone).getLast? with
  | none => false
  | some lastMsg =>
    match parse_infobip_timestamp currentTs with
    | none => false
    | some currentT =>
      match parse_infobip_timestamp lastMsg.timestamp with
      | none => false
      | some lastT => decide (currentT - lastT ≤ CASE_WINDOW_MICROS)

/-- Embedding of `app.store_in_memory`: append one entry to the list of
the phone key, creating the list when absent. -/
def store_in_memory (store : MessageStore) (phone msgType text docUrl timestamp : Option String) :
    MessageStore :=
  fun k => if k = phone then store phone ++ [⟨msgType, text, docUrl, timestamp⟩] else store k

/-- Result of `app.get_case_for_phone`: the returned case id (or the
propagated exception of `create_case`), the case store after the call, and
whether ticket creation was requested from the collaborator. -/
structure GetCaseResult where
  result : Except Unit String
  caseStore : CaseStore
  createCalled : Bool

/-- The create branch of `app.get_case_for_phone`: ask the ticketing
collaborator for a new case; on success store a fresh record for the
phone (replacing any prior record) and return the new id; a raised
exception propagates, leaving the store untouched. -/
def createCaseBranch (cs : CaseStore) (createResult : Except Unit String)
    (phone ts : Option String) : GetCaseResult :=
  match createResult with
  | Except.error e => ⟨Except.error e, cs, true⟩
  | Except.ok cid =>
    ⟨Except.ok cid, fun k => if k = phone then some ⟨cid, ts⟩ else cs k, true⟩

/-- Embedding of `app.get_case_for_phone`.  The outcome of the external
`create_case` call is the parameter `createResult` (used only if the
create branch is reached).  When the window is active and a cached record
with a truthy case id exists, the record keeps its id, its last activity
is set to the received timestamp, and the cached id is returned with no
creation request; otherwise the create branch runs.  The name and company
arguments are forwarded to the collaborator only and do not influence the
modelled state. -/
def get_case_for_phone (ms : MessageStore) (cs : CaseStore) (createResult : Except Unit String)
    (phone _nom _entreprise received_at : Option String) : GetCaseResult :=
  let active := has_active_window ms phone received_at
  match cs phone with
  | some cached =>
    if active = true ∧ cached.case_id ≠ "" then
      ⟨Except.ok cached.case_id,
       fun k => if k = phone then some ⟨cached.case_id, received_at⟩ else cs k,
       false⟩
    else createCaseBranch cs createResult phone received_at
  | none => createCaseBranch cs createResult phone received_at

/-!
Claims about the conversation correlator.
-/

/-- C1 (amended): the active-window test is true exactly when a previous
entry exists, both timestamps parse, and the signed difference between
the current and the last stored instant is at most the two-hour window;
no absolute value is taken, so an event timestamped before the last
stored entry is active whatever the backward gap. -/
theorem has_active_window_signed_iff (store : MessageStore) (phone cur : Option String) :
    has_active_window store phone cur = true ↔
      ∃ lastMsg curT lastT,
        (store phone).getLast? = some lastMsg ∧
        parse_infobip_timestamp cur = some curT ∧
        parse_infobip_timestamp lastMsg.timestamp = some lastT ∧
        curT - lastT ≤ CASE_WINDOW_MICROS := by
  unfold has_active_window
  rcases hl : (store phone).getLast? with _ | lastMsg
  · simp
  · rcases hc : parse_infobip_timestamp cur with _ | curT
    · simp [hc]
    · rcases hp : parse_infobip_timestamp lastMsg.timestamp with _ | lastT
      · simp [hc, hp]
      · simp [hc, hp]

/-- Sample entry for the counterexample store: a message stored at
20:00 UTC. -/
def cexEntry : Entry :=
  ⟨some "TEXT", some "hello", none, some "2025-11-16T20:00:00.000+0000"⟩

/-- Counterexample message store with a single stored message. -/
def cexStore : MessageStore :=
  fun k => if k = some "212612345678" then [cexEntry] else []

/-- C1 counterexample: an event at 10:00 UTC arriving after a stored entry
timestamped 20:00 UTC the same day is reported active although the
magnitude of the elapsed duration is ten hours, far beyond the two-hour
bound; the claim that activity holds only while the absolute elapsed
duration is within the window is therefore false on the code. -/
theorem active_window_ignores_backward_magnitude :
    has_active_window cexStore (some "212612345678")
        (some "2025-11-16T10:00:00.000+0000") = true ∧
    parse_infobip_timestamp (some "2025-11-16T10:00:00.000+0000") =
        some 1763287200000000 ∧
    parse_infobip_timestamp (some "2025-11-16T20:00:00.000+0000") =
        some 1763323200000000 ∧
    ¬ (|(1763287200000000 - 1763323200000000 : Int)| ≤ CASE_WINDOW_MICROS) := by
  refine ⟨by decide, by decide, by decide, by decide⟩

/-- C2: the correlator reuses the cached case exactly when the window is
active and a cached record with a truthy case id exists, updating only its
last activity; in every other situation it requests creation, stores a
fresh record for the identity, and returns the new id. -/
theorem resolve_ticket_reuse_or_create (ms : MessageStore) (cs : CaseStore)
    (phone nom entreprise ts : Option String) (newId : String) :
    ((∃ c, cs phone = some c ∧ c.case_id ≠ "" ∧ has_active_window ms phone ts = true) →
      ∃ c, cs phone = some c ∧
        (get_case_for_phone ms cs (Except.ok newId) phone nom entreprise ts).result =
          Except.ok c.case_id ∧
        (get_case_for_phone ms cs (Except.ok newId) phone nom entreprise ts).createCalled =
          false ∧
        (get_case_for_phone ms cs (Except.ok newId) phone nom entreprise ts).caseStore =
          fun k => if k = phone then some ⟨c.case_id, ts⟩ else cs k) ∧
    (¬ (∃ c, cs phone = some c ∧ c.case_id ≠ "" ∧ has_active_window ms phone ts = true) →
      (get_case_for_phone ms cs (Except.ok newId) phone nom entreprise ts).result =
        Except.ok newId ∧
      (get_case_for_phone ms cs (Except.ok newId) phone nom entreprise ts).createCalled =
        true ∧
      (get_case_for_phone ms cs (Except.ok newId) phone nom entreprise ts).caseStore =
        fun k => if k = phone then some ⟨newId, ts⟩ else cs k) := by
  rcases hc : cs phone with _ | cached
  · refine ⟨fun hex => absurd hex ?_, fun _ => ?_⟩
    · rintro ⟨c, hcc, -⟩
      exact Option.noConfusion hcc
    · simp [get_case_for_phone, createCaseBranch, hc]
  · by_cases hcond : has_active_window ms phone ts = true ∧ cached.case_id ≠ ""
    · refine ⟨fun _ => ⟨cached, rfl, ?_⟩, fun hn => ?_⟩
      · simp [get_case_for_phone, hc, hcond.1, hcond.2]
      · exact absurd ⟨cached, rfl, hcond.2, hcond.1⟩ hn
    · refine ⟨fun hex => ?_, fun _ => ?_⟩
      · rcases hex with ⟨c, hcc, hid, hact⟩
        injection hcc with hcc
        subst hcc
        exact absurd ⟨hact, hid⟩ hcond
      · refine ⟨?_, ?_, ?_⟩ <;>
          simp [get_case_for_phone, createCaseBranch, hc, if_neg hcond]

/-- C2 witness: on empty stores the create branch runs and returns the
fresh id. -/
theorem resolve_ticket_witness :
    (get_case_for_phone (fun _ => []) (fun _ => none) (Except.ok "500X")
        (some "212612345678") none none (some "2025-11-16T10:00:00.000+0000")).result =
      Except.ok "500X" ∧
    (get_case_for_phone (fun _ => []) (fun _ => none) (Except.ok "500X")
        (some "212612345678") none none (some "2025-11-16T10:00:00.000+0000")).createCalled =
      true := by
  have h := (resolve_ticket_reuse_or_create (fun _ => []) (fun _ => none)
    (some "212612345678") none none (some "2025-11-16T10:00:00.000+0000") "500X").2
    (by rintro ⟨c, hcc, -⟩; exact Option.noConfusion hcc)
  exact ⟨h.1, h.2.1⟩

/-- C9: when the ticketing collaborator raises during creation, the whole
case store is exactly what it was before the call, and the exception
propagates. -/
theorem create_failure_preserves_case_store (ms : MessageStore) (cs : CaseStore)
    (phone nom entreprise ts : Option String)
    (h : (get_case_for_phone ms cs (Except.error ()) phone nom entreprise ts).createCalled =
      true) :
    (get_case_for_phone ms cs (Except.error ()) phone nom entreprise ts).caseStore = cs ∧
    (get_case_for_phone ms cs (Except.error ()) phone nom entreprise ts).result =
      Except.error () := by
  rcases hc : cs phone with _ | cached
  · constructor <;> simp [get_case_for_phone, createCaseBranch, hc]
  · by_cases hcond : has_active_window ms phone ts = true ∧ cached.case_id ≠ ""
    · exfalso
      have hf : (get_case_for_phone ms cs (Except.error ())
          phone nom entreprise ts).createCalled = false := by
        simp [get_case_for_phone, hc, hcond.1, hcond.2]
      rw [hf] at h
      exact Bool.noConfusion h
    · constructor <;>
        simp [get_case_for_phone, createCaseBranch, hc, if_neg hcond]

/-- C9 witness: with no cached record the creation failure leaves the
store untouched. -/
theorem create_failure_witness :
    (get_case_for_phone (fun _ => []) (fun _ => none) (Except.error ())
        (some "212612345678") none none none).caseStore = (fun _ => none) ∧
    (get_case_for_phone (fun _ => []) (fun _ => none) (Except.error ())
        (some "212612345678") none none none).result = Except.error () :=
  create_failure_preserves_case_store (fun _ => []) (fun _ => none)
    (some "212612345678") none none none rfl

/-!
Structural lemmas about the placeholder sanitizer.
-/

/-- The control replacement leaves no newline, carriage return or tab. -/
theorem noCtl_map_replaceCtl (l : List Char) : noCtl (l.map replaceCtl) = true := by
  induction l with
  | nil => rfl
  | cons c cs ih =>
    simp only [List.map_cons, noCtl, List.all_cons, Bool.and_eq_true] at *
    refine ⟨?_, ih⟩
    unfold replaceCtl
    split
    · decide
    · rename_i hn
      simp only [not_or] at hn
      simp [beq_iff_eq, hn.1, hn.2.1, hn.2.2]

/-- Dropping a whitespace prefix cannot introduce control characters. -/
theorem noCtl_dropWhile (l : List Char) (h : noCtl l = true) :
    noCtl (l.dropWhile pyIsSpace) = true := by
  induction l with
  | nil => exact h
  | cons c cs ih =>
    rw [List.dropWhile_cons]
    simp only [noCtl, List.all_cons, Bool.and_eq_true] at h
    split
    · exact ih h.2
    · simpa [noCtl, List.all_cons] using h

/-- Removing a whitespace suffix cannot introduce control characters. -/
theorem noCtl_dropTrailingWs (l : List Char) (h : noCtl l = true) :
    noCtl (dropTrailingWs l) = true := by
  induction l with
  | nil => exact h
  | cons c cs ih =>
    simp only [noCtl, List.all_cons, Bool.and_eq_true] at h
    simp only [dropTrailingWs]
    split
    · rfl
    · simp only [noCtl, List.all_cons, Bool.and_eq_true]
      exact ⟨h.1, by simpa only [noCtl] using ih h.2⟩

/-- The collapse pass cannot introduce control characters. -/
theorem noCtl_collapseGo (b : Bool) (l : List Char) (h : noCtl l = true) :
    noCtl (collapseGo b l) = true := by
  induction l generalizing b with
  | nil => exact h
  | cons c cs ih =>
    simp only [noCtl, List.all_cons, Bool.and_eq_true] at h
    simp only [collapseGo]
    split
    · exact ih true h.2
    · split
      · simp only [noCtl, List.all_cons, Bool.and_eq_true]
        exact ⟨by decide, ih false h.2⟩
      · simp only [noCtl, List.all_cons, Bool.and_eq_true]
        exact ⟨h.1, ih false h.2⟩

/-- Collapsing whitespace runs cannot introduce control characters. -/
theorem noCtl_collapseWs (l : List Char) (h : noCtl l = true) :
    noCtl (collapseWs l) = true :=
  noCtl_collapseGo false l h

/-- A collapse output starting with whitespace means the input did. -/
theorem headSpace_collapseGo (b : Bool) (l : List Char)
    (h : headSpace (collapseGo b l) = true) : headSpace l = true := by
  induction l generalizing b with
  | nil => exact h
  | cons c cs ih =>
    simp only [collapseGo] at h
    simp only [headSpace, List.head?_cons]
    split at h
    · rename_i hc
      simp only [Bool.and_eq_true] at hc
      exact hc.1
    · split at h
      · rename_i hc
        simp only [Bool.and_eq_true] at hc
        exact hc.2
      · simpa [headSpace] using h

/-- After dropping the whitespace prefix nothing whitespace can lead. -/
theorem headSpace_dropWhile (l : List Char) :
    headSpace (l.dropWhile pyIsSpace) = false := by
  induction l with
  | nil => rfl
  | cons c cs ih =>
    rw [List.dropWhile_cons]
    split
    · exact ih
    · rename_i hns
      simpa [headSpace] using hns

/-- Tail of the no-double-whitespace invariant. -/
theorem noDoubleWs_tail (c : Char) (l : List Char) (h : noDoubleWs (c :: l) = true) :
    noDoubleWs l = true := by
  simp only [noDoubleWs, Bool.and_eq_true] at h
  exact h.2

/-- The collapse pass never leaves two adjacent whitespace characters. -/
theorem noDoubleWs_collapseGo (b : Bool) (l : List Char) :
    noDoubleWs (collapseGo b l) = true := by
  induction l generalizing b with
  | nil => rfl
  | cons c cs ih =>
    simp only [collapseGo]
    split
    · exact ih true
    · rename_i hrun
      have hafter : ∀ bb : Bool, pyIsSpace c = true →
          headSpace (collapseGo bb cs) = false := by
        intro bb
        intro hsp
        by_cases hh : headSpace (collapseGo bb cs) = true
        · exact absurd (by simp [hsp, headSpace_collapseGo bb cs hh]) hrun
        · simpa using hh
      split
      · rename_i hc
        simp only [Bool.and_eq_true] at hc
        simp only [noDoubleWs, Bool.and_eq_true]
        refine ⟨?_, ih false⟩
        simp [hafter false hc.2]
      · simp only [noDoubleWs, Bool.and_eq_true]
        refine ⟨?_, ih false⟩
        by_cases hsp : pyIsSpace c = true
        · simp [hafter false hsp]
        · simp [Bool.eq_false_iff.mpr hsp]

/-- The collapse output never has two adjacent whitespace characters. -/
theorem noDoubleWs_collapseWs (l : List Char) : noDoubleWs (collapseWs l) = true :=
  noDoubleWs_collapseGo false l

/-- Dropping a whitespace prefix preserves the no-double invariant. -/
theorem noDoubleWs_dropWhile (l : List Char) (h : noDoubleWs l = true) :
    noDoubleWs (l.dropWhile pyIsSpace) = true := by
  induction l with
  | nil => exact h
  | cons c cs ih =>
    rw [List.dropWhile_cons]
    split
    · exact ih (noDoubleWs_tail c cs h)
    · exact h

/-- Removing a whitespace suffix keeps the head or empties the list. -/
theorem dropTrailingWs_head (l : List Char) :
    (dropTrailingWs l).head? = l.head? ∨ dropTrailingWs l = [] := by
  match l with
  | [] => exact Or.inr rfl
  | c :: cs =>
    simp only [dropTrailingWs]
    split
    · exact Or.inr rfl
    · exact Or.inl rfl

/-- Removing a whitespace suffix preserves the no-double invariant. -/
theorem noDoubleWs_dropTrailingWs (l : List Char) (h : noDoubleWs l = true) :
    noDoubleWs (dropTrailingWs l) = true := by
  induction l with
  | nil => exact h
  | cons c cs ih =>
    simp only [dropTrailingWs]
    split
    · rfl
    · simp only [noDoubleWs, Bool.and_eq_true]
      refine ⟨?_, ih (noDoubleWs_tail c cs h)⟩
      simp only [noDoubleWs, Bool.and_eq_true] at h
      rcases dropTrailingWs_head cs with he | he
      · simpa [headSpace, he] using h.1
      · simp [he, headSpace]

/-- The trailing-whitespace removal leaves no whitespace at the end. -/
theorem lastSpace_dropTrailingWs (l : List Char) :
    lastSpace (dropTrailingWs l) = false := by
  induction l with
  | nil => rfl
  | cons c cs ih =>
    simp only [dropTrailingWs]
    split
    · rfl
    · rename_i hcond
      cases hr : dropTrailingWs cs with
      | nil =>
        have hns : pyIsSpace c = false := by
          by_cases hsp : pyIsSpace c = true
          · exact absurd ⟨by simp [hr], hsp⟩ hcond
          · simpa using hsp
        simp [lastSpace, hns]
      | cons x xs =>
        rw [hr] at ih
        simpa [lastSpace, List.getLast?_cons_cons] using ih

/-- Replacement is the identity on strings without control characters. -/
theorem map_replaceCtl_id (l : List Char) (h : noCtl l = true) :
    l.map replaceCtl = l := by
  induction l with
  | nil => rfl
  | cons c cs ih =>
    simp only [noCtl, List.all_cons, Bool.and_eq_true] at h
    simp only [List.map_cons]
    have h1 := h.1
    have hc : replaceCtl c = c := by
      unfold replaceCtl
      rw [if_neg]
      intro hor
      rcases hor with hh | hh | hh <;> rw [hh] at h1 <;> simp at h1
    rw [hc, ih h.2]

/-- Collapsing is the identity when no double whitespace is present. -/
theorem collapseWs_id (l : List Char) (h : noDoubleWs l = true) :
    collapseWs l = l := by
  unfold collapseWs
  induction l with
  | nil => rfl
  | cons c cs ih =>
    simp only [noDoubleWs, Bool.and_eq_true] at h
    simp only [collapseGo]
    have hf : (pyIsSpace c && headSpace cs) = false := by
      cases hx : (pyIsSpace c && headSpace cs)
      · rfl
      · exact absurd h.1 (by simp [hx])
    rw [if_neg (by simp [hf])]
    simp only [Bool.false_and, if_neg (by simp : ¬(false = true))]
    rw [ih h.2]

/-- Dropping the whitespace prefix is the identity on trimmed-left lists. -/
theorem dropWhile_id (l : List Char) (h : headSpace l = false) :
    l.dropWhile pyIsSpace = l := by
  cases l with
  | nil => rfl
  | cons c cs =>
    simp only [headSpace, List.head?_cons] at h
    rw [List.dropWhile_cons, if_neg (by simp [h])]

/-- Removing the whitespace suffix is the identity on trimmed-right lists. -/
theorem dropTrailingWs_id (l : List Char) (h : lastSpace l = false) :
    dropTrailingWs l = l := by
  induction l with
  | nil => rfl
  | cons c cs ih =>
    cases hcs : cs with
    | nil =>
      subst hcs
      simp only [lastSpace, List.getLast?_singleton] at h
      simp [dropTrailingWs, h]
    | cons x xs =>
      rw [← hcs]
      have hcs2 : lastSpace cs = false := by
        rw [hcs] at h ⊢
        simpa [lastSpace, List.getLast?_cons_cons] using h
      have hr := ih hcs2
      have hne : ¬(cs.isEmpty = true ∧ pyIsSpace c = true) := by
        rintro ⟨he, -⟩
        rw [hcs] at he
        simp at he
      simp only [dropTrailingWs, hr, if_neg hne]

/-- The whole strip is the identity on lists trimmed at both ends. -/
theorem pyStripChars_id (l : List Char) (hh : headSpace l = false)
    (hl : lastSpace l = false) : pyStripChars l = l := by
  unfold pyStripChars
  rw [dropWhile_id l hh, dropTrailingWs_id l hl]

/-- The strip output starts with no whitespace. -/
theorem headSpace_pyStripChars (l : List Char) :
    headSpace (pyStripChars l) = false := by
  unfold pyStripChars
  rcases dropTrailingWs_head (l.dropWhile pyIsSpace) with he | he
  · rw [headSpace, he, ← headSpace]
    exact headSpace_dropWhile _
  · rw [he]
    rfl

/-- C8: sanitizing a placeholder leaves no newline, carriage return or
tab, leaves no two adjacent whitespace characters (every longer run has
been collapsed to one space), trims both ends, and on the sample input
from the specification produces the expected output. -/
theorem clean_placeholder_sanitizes (value : String) :
    noCtl (clean_placeholder value).data = true ∧
    noDoubleWs (clean_placeholder value).data = true ∧
    trimmedEnds (clean_placeholder value).data = true ∧
    clean_placeholder "  A\n\tB  " = "A B" := by
  refine ⟨?_, ?_, ?_, by decide⟩ <;> unfold clean_placeholder <;>
    by_cases hv : value = ""
  · rw [if_pos hv]; rfl
  · rw [if_neg hv]
    exact noCtl_dropTrailingWs _ (noCtl_dropWhile _
      (noCtl_collapseWs _ (noCtl_map_replaceCtl _)))
  · rw [if_pos hv]; rfl
  · rw [if_neg hv]
    exact noDoubleWs_dropTrailingWs _ (noDoubleWs_dropWhile _
      (noDoubleWs_collapseWs _))
  · rw [if_pos hv]; rfl
  · rw [if_neg hv]
    show trimmedEnds (pyStripChars (collapseWs (value.data.map replaceCtl))) = true
    unfold trimmedEnds
    rw [headSpace_pyStripChars]
    unfold pyStripChars
    rw [lastSpace_dropTrailingWs]
    rfl

/-- C10: the placeholder sanitizer is idempotent. -/
theorem clean_placeholder_idempotent (value : String) :
    clean_placeholder (clean_placeholder value) = clean_placeholder value := by
  by_cases hv : value = ""
  · subst hv
    rfl
  · have h1 : clean_placeholder value =
        String.mk (pyStripChars (collapseWs (value.data.map replaceCtl))) := by
      unfold clean_placeholder
      rw [if_neg hv]
    rw [h1]
    by_cases hl : String.mk (pyStripChars (collapseWs (value.data.map replaceCtl))) = ""
    · rw [hl]
      rfl
    · unfold clean_placeholder
      rw [if_neg hl]
      have hctl : noCtl (pyStripChars (collapseWs (value.data.map replaceCtl))) = true :=
        noCtl_dropTrailingWs _ (noCtl_dropWhile _
          (noCtl_collapseWs _ (noCtl_map_replaceCtl _)))
      have hdd : noDoubleWs (pyStripChars (collapseWs (value.data.map replaceCtl))) = true :=
        noDoubleWs_dropTrailingWs _ (noDoubleWs_dropWhile _ (noDoubleWs_collapseWs _))
      have hlast : lastSpace (pyStripChars (collapseWs (value.data.map replaceCtl))) = false :=
        lastSpace_dropTrailingWs _
      show String.mk (pyStripChars (collapseWs
        ((pyStripChars (collapseWs (value.data.map replaceCtl))).map replaceCtl))) = _
      rw [map_replaceCtl_id _ hctl, collapseWs_id _ hdd,
        pyStripChars_id _ (headSpace_pyStripChars _) hlast]

/-!
The Infobip webhook (`app.infobip_webhook`), one event of the results
batch at a time.  An event dictionary is modelled with one field per key
the handler reads; a key that can be present with a null value is a
nested option (outer: key present; inner: value not null) wherever the
handler distinguishes presence from truthiness.
-/

/-- Raw value found under the price-per-message key of a receipt: either
a value `float()` accepts (a number, modelled as a rational) or one it
raises on (anything else); the conversion failure is caught and treated
as no price. -/
inductive RawPrice where
  | num (q : ℚ)
  | bad
deriving DecidableEq

/-- The price object of a delivery receipt. -/
structure PriceObj where
  pricePerMessage : Option RawPrice
  currency : Option String
deriving DecidableEq

/-- The message object of a conversation event, with the fields the
handler reads (the nested content text stands for the text found under
the content key). -/
structure MsgObj where
  msgType : Option String
  text : Option String
  contentText : Option String
  url : Option String
  documentUrl : Option String
  imageUrl : Option String
  caption : Option String
deriving DecidableEq

/-- One event of the webhook batch. -/
structure WebhookMsg where
  price : Option (Option PriceObj)
  messageId : Option (Option String)
  toNumber : Option (Option String)
  doneAt : Option String
  integrationType : Option String
  message : Option (Option MsgObj)
  fromNumber : Option String
  sender : Option String
  receivedAt : Option String
  contactName : Option String

/-- The persisted price record (`PRICE_CACHE_FILE` content). -/
structure PriceRecord where
  pricePerMessage : ℚ
  currency : Option String
  updatedAt : Option String
deriving DecidableEq

/-- The state the webhook handler can touch. -/
structure WebhookState where
  messageStore : MessageStore
  caseStore : CaseStore
  priceCache : Option PriceRecord

/-- Outcomes of the external collaborators during one event, plus the
contact-table lookup results for the sender (all inputs the handler does
not compute itself). -/
structure Externals where
  sessionResult : Except Unit Unit
  createResult : Except Unit String
  downloadPayload : Option Unit
  excelName : Option String
  excelCompany : Option String

/-- What processing one event did: the new state and which of the three
observable actions ran. -/
structure EventResult where
  state : WebhookState
  storedHistory : Bool
  resolvedTicket : Bool
  attachedMedia : Bool

/-- The dispatch test of the delivery-receipt branch: the price,
messageId and recipient keys are all present. -/
def isPriceEvent (m : WebhookMsg) : Bool :=
  m.price.isSome && m.messageId.isSome && m.toNumber.isSome

/-- The float conversion of the raw price value: absent and null keys
yield nothing, a non-numeric value raises and is caught to nothing. -/
def priceValOf (m : WebhookMsg) : Option ℚ :=
  let priceObj := (m.price.getD none).getD ⟨none, none⟩
  match priceObj.pricePerMessage with
  | some (RawPrice.num q) => some q
  | some RawPrice.bad => none
  | none => none

/-- The currency the receipt carries. -/
def currencyOf (m : WebhookMsg) : Option String :=
  ((m.price.getD none).getD ⟨none, none⟩).currency

/-- The skip test for status events on the conversation path: a falsy
integration type or a missing message key. -/
def isStatusSkip (m : WebhookMsg) : Bool :=
  !(pyTruthy m.integrationType) || m.message.isNone

/-- The text the handler extracts for a text message. -/
def textOf (mo : MsgObj) : Option String :=
  if mo.msgType = some "TEXT" ∨ mo.msgType = some "text" then
    pyOr mo.text mo.contentText
  else none

/-- The media url the handler extracts for a document or image
message. -/
def docUrlOf (mo : MsgObj) : Option String :=
  if mo.msgType = some "DOCUMENT" ∨ mo.msgType = some "document" ∨
      mo.msgType = some "IMAGE" ∨ mo.msgType = some "image" then
    pyOr mo.url (pyOr mo.documentUrl mo.imageUrl)
  else none

/-- Embedding of one iteration of the results loop of
`app.infobip_webhook`.  A delivery receipt (price, messageId and
recipient present) only logs and, when the converted price is a positive
number, overwrites the persisted price record; it is explicitly skipped
for the Salesforce path.  A status event without truthy integration type
or message key is skipped entirely.  A conversation message is appended
to the history, then inside the guarded block the Salesforce session is
obtained, the case is resolved, and a carried document is downloaded and
attached; any Salesforce or unexpected exception abandons the remaining
steps of this event only. -/
def processEvent (ext : Externals) (st : WebhookState) (m : WebhookMsg) : EventResult :=
  if isPriceEvent m then
    let newCache :=
      match priceValOf m with
      | some q =>
        if q > 0 then some ⟨q, currencyOf m, m.doneAt⟩ else st.priceCache
      | none => st.priceCache
    ⟨⟨st.messageStore, st.caseStore, newCache⟩, false, false, false⟩
  else if isStatusSkip m then
    ⟨st, false, false, false⟩
  else
    let phone := pyOr m.fromNumber m.sender
    let mo := (m.message.getD none).getD ⟨none, none, none, none, none, none, none⟩
    let text := textOf mo
    let docUrl := docUrlOf mo
    let ms1 := store_in_memory st.messageStore phone mo.msgType text docUrl m.receivedAt
    match ext.sessionResult with
    | Except.error _ => ⟨⟨ms1, st.caseStore, st.priceCache⟩, true, false, false⟩
    | Except.ok _ =>
      let r := get_case_for_phone ms1 st.caseStore ext.createResult phone
        (pyOr ext.excelName m.contactName) ext.excelCompany m.receivedAt
      match r.result with
      | Except.error _ => ⟨⟨ms1, r.caseStore, st.priceCache⟩, true, true, false⟩
      | Except.ok _ =>
        let attach := pyTruthy docUrl && ext.downloadPayload.isSome
        ⟨⟨ms1, r.caseStore, st.priceCache⟩, true, true, attach⟩

/-- C6: processing a delivery-receipt event (price, messageId and
recipient all present) never appends to the message history, never
resolves a ticket (so neither creates nor reuses one), never attaches
media, and leaves both the message store and the case store exactly as
they were. -/
theorem price_event_skips_conversation_path (ext : Externals) (st : WebhookState)
    (m : WebhookMsg) (hp : isPriceEvent m = true) :
    (processEvent ext st m).storedHistory = false ∧
    (processEvent ext st m).resolvedTicket = false ∧
    (processEvent ext st m).attachedMedia = false ∧
    (processEvent ext st m).state.messageStore = st.messageStore ∧
    (processEvent ext st m).state.caseStore = st.caseStore := by
  unfold processEvent
  rw [if_pos hp]
  exact ⟨rfl, rfl, rfl, rfl, rfl⟩

/-- Receipt event used by the webhook witnesses. -/
def wPriceMsg : WebhookMsg :=
  { price := some (some ⟨some (RawPrice.num (6 / 1000)), some "USD"⟩)
    messageId := some (some "abc-123")
    toNumber := some (some "212612345678")
    doneAt := some "2025-11-16T10:26:07.000+0000"
    integrationType := none
    message := none
    fromNumber := none
    sender := none
    receivedAt := none
    contactName := none }

/-- Webhook state used by the witnesses. -/
def wState : WebhookState :=
  ⟨fun _ => [], fun _ => none, none⟩

/-- External outcomes used by the witnesses. -/
def wExt : Externals :=
  ⟨Except.ok (), Except.ok "500X", none, none, none⟩

/-- C6 witness: a concrete receipt event is skipped by the conversation
path. -/
theorem price_event_skips_witness :
    (processEvent wExt wState wPriceMsg).storedHistory = false ∧
    (processEvent wExt wState wPriceMsg).resolvedTicket = false ∧
    (processEvent wExt wState wPriceMsg).attachedMedia = false :=
  ⟨(price_event_skips_conversation_path wExt wState wPriceMsg rfl).1,
   (price_event_skips_conversation_path wExt wState wPriceMsg rfl).2.1,
   (price_event_skips_conversation_path wExt wState wPriceMsg rfl).2.2.1⟩

/-- C7: on a delivery receipt the persisted price record is overwritten
exactly when the converted price value is a positive number, and then
with that value, the carried currency and the completion timestamp; when
the value is absent, unparsable, zero or negative the record is left
entirely unchanged. -/
theorem record_price_only_positive (ext : Externals) (st : WebhookState)
    (m : WebhookMsg) (hp : isPriceEvent m = true) :
    (∀ q : ℚ, priceValOf m = some q → 0 < q →
      (processEvent ext st m).state.priceCache =
        some ⟨q, currencyOf m, m.doneAt⟩) ∧
    ((priceValOf m = none ∨ ∃ q : ℚ, priceValOf m = some q ∧ q ≤ 0) →
      (processEvent ext st m).state.priceCache = st.priceCache) := by
  unfold processEvent
  rw [if_pos hp]
  constructor
  · intro q hq hpos
    simp only [hq]
    rw [if_pos hpos]
  · intro hcase
    rcases hcase with hnone | ⟨q, hq, hle⟩
    · simp only [hnone]
    · simp only [hq]
      rw [if_neg (not_lt.mpr hle)]

/-- C7 witness: a positive receipt price overwrites the record, and a
receipt with a null price object leaves it unchanged. -/
theorem record_price_witness :
    (processEvent wExt wState wPriceMsg).state.priceCache =
      some ⟨6 / 1000, some "USD", some "2025-11-16T10:26:07.000+0000"⟩ ∧
    (processEvent wExt
        ⟨fun _ => [], fun _ => none, some ⟨1 / 100, some "USD", none⟩⟩
        { wPriceMsg with price := some none }).state.priceCache =
      some ⟨1 / 100, some "USD", none⟩ :=
  ⟨(record_price_only_positive wExt wState wPriceMsg rfl).1 (6 / 1000) rfl (by norm_num),
   (record_price_only_positive wExt
      ⟨fun _ => [], fun _ => none, some ⟨1 / 100, some "USD", none⟩⟩
      { wPriceMsg with price := some none } rfl).2 (Or.inl rfl)⟩

/-!
The campaign batch runner.  The snapshot under src/send_campaign.py
(`run_campaign`, `send_template_message`) counts rows and successes but
keeps no cost and returns nothing; it is embedded below as
`run_campaign_src`.  The revision app.py actually imports (a
`run_campaign` taking the csv and report paths, returning a summary
dictionary with a total cost, next to the `PRICE_CACHE_FILE` it reads) is
not part of the snapshot, so the summary-returning runner and its cost
fallback are modelled from the specification further below.
-/

/-- One csv row of the campaign source, the five fields the loop reads. -/
structure CampaignCsvRow where
  nomAdherent : String
  numero : String
  dateConsult : String
  frais : String
  observation : String
deriving DecidableEq

/-- Behaviour of one `send_template_message` call: either the post
returned a status code, or the call raised (network failure; nothing in
the function catches it). -/
inductive SendBehavior where
  | response (statusCode : Nat)
  | raises
deriving DecidableEq

/-- Result of a source-snapshot campaign run: the three console totals,
or the propagated exception, together with the rows for which a send was
actually issued, in order. -/
structure SrcRunResult where
  outcome : Except Unit (Nat × Nat × Nat)
  attempted : List CampaignCsvRow

/-- The row loop of the snapshot `run_campaign`: strip the recipient
number, skip the row silently when it is empty, otherwise count it and
send; a 2xx response counts as a success and anything else as an error;
an exception from the send propagates immediately, losing the totals and
leaving the remaining rows unprocessed. -/
def run_campaign_go : List (CampaignCsvRow × SendBehavior) → Nat → Nat → Nat →
    List CampaignCsvRow → SrcRunResult
  | [], w, ok, err, att => ⟨Except.ok (w, ok, err), att.reverse⟩
  | (row, beh) :: rest, w, ok, err, att =>
    if pyStrip row.numero = "" then run_campaign_go rest w ok err att
    else
      match beh with
      | SendBehavior.raises => ⟨Except.error (), (row :: att).reverse⟩
      | SendBehavior.response code =>
        if 200 ≤ code ∧ code < 300 then
          run_campaign_go rest (w + 1) (ok + 1) err (row :: att)
        else
          run_campaign_go rest (w + 1) ok (err + 1) (row :: att)

/-- Embedding of the snapshot `send_campaign.run_campaign`: a missing api
key raises before anything is read; each send behaviour is supplied per
row. -/
def run_campaign_src (apiKey : Option String)
    (rows : List (CampaignCsvRow × SendBehavior)) : SrcRunResult :=
  if pyTruthy apiKey = false then ⟨Except.error (), []⟩
  else run_campaign_go rows 0 0 0 []

/-- C5 rows: the first send raises, the second would succeed. -/
def c5row1 : CampaignCsvRow := ⟨"Alice", "212600000001", "2025-01-01", "100", "ras"⟩

/-- C5 second row, never reached. -/
def c5row2 : CampaignCsvRow := ⟨"Bob", "212600000002", "2025-01-02", "200", "ras"⟩

/-- C5: in the snapshot runner an exception while sending the first row
propagates out of the loop: the run produces no totals and the second
row is never attempted, instead of recording an error outcome for the
first row and continuing — the failure isolation the specification
requires is absent from this code. -/
theorem send_exception_aborts_batch :
    run_campaign_src (some "KEY")
        [(c5row1, SendBehavior.raises), (c5row2, SendBehavior.response 200)] =
      ⟨Except.error (), [c5row1]⟩ := rfl

/-!
Summary-returning campaign runner with the cost fallback.
-/

/-- Modelled from the spec: one campaign row (recipient identity, display
name, ordered placeholder values); the summary-returning runner this row
feeds is imported by app.py but missing from the snapshot. -/
structure CampaignRow where
  recipient : String
  displayName : String
  placeholders : List String
deriving DecidableEq

/-- Modelled from the spec: the structured synchronous send response
(http status, provider message id, optional price per message). -/
structure SendResponse where
  httpStatus : Nat
  messageId : Option String
  rawCost : Option ℚ
deriving DecidableEq

/-- Modelled from the spec: one outcome row of the campaign report. -/
structure OutcomeRow where
  row : CampaignRow
  httpStatus : Nat
  okStatus : Bool
  messageId : Option String
  cost : ℚ
deriving DecidableEq

/-- Modelled from the spec: the aggregated totals of one campaign run
(the wall-clock stamp of the summary is outside the embedding). -/
structure CampaignSummary where
  rowsWithRecipient : Nat
  successCount : Nat
  errorCount : Nat
  totalCost : ℚ
deriving DecidableEq

/-- Modelled from the spec: the fallback when the response carries no
usable cost — the most recently observed price record when one exists,
else the fixed configured default. -/
def fallbackCost (price : Option PriceRecord) (defaultCost : ℚ) : ℚ :=
  match price with
  | some p => p.pricePerMessage
  | none => defaultCost

/-- Modelled from the spec: the cost retained for an OK send — the
response cost when it is present and nonzero, the fallback otherwise. -/
def effectiveCost (rawCost : Option ℚ) (price : Option PriceRecord)
    (defaultCost : ℚ) : ℚ :=
  match rawCost with
  | some c => if c = 0 then fallbackCost price defaultCost else c
  | none => fallbackCost price defaultCost

/-- Modelled from the spec: the outcome row written for one processed
campaign row — OK exactly when the http status is in the 200 to 299
range, with the cost fallback applied to OK sends. -/
def mkOutcome (price : Option PriceRecord) (defaultCost : ℚ)
    (row : CampaignRow) (resp : SendResponse) : OutcomeRow :=
  { row := row
    httpStatus := resp.httpStatus
    okStatus := decide (200 ≤ resp.httpStatus ∧ resp.httpStatus < 300)
    messageId := resp.messageId
    cost :=
      if 200 ≤ resp.httpStatus ∧ resp.httpStatus < 300 then
        effectiveCost resp.rawCost price defaultCost
      else resp.rawCost.getD 0 }

/-- Modelled from the spec: the summary-returning campaign runner — rows
with an empty stripped recipient are skipped and excluded from report and
totals; every other row yields one report row and updates the counters
(row counted; on OK the success count and the total cost, on error the
error count). -/
def runCampaign (price : Option PriceRecord) (defaultCost : ℚ) :
    List (CampaignRow × SendResponse) → (List OutcomeRow × CampaignSummary)
  | [] => ([], ⟨0, 0, 0, 0⟩)
  | (row, resp) :: rest =>
    if pyStrip row.recipient = "" then runCampaign price defaultCost rest
    else
      let o := mkOutcome price defaultCost row resp
      let r := runCampaign price defaultCost rest
      (o :: r.1,
       ⟨r.2.rowsWithRecipient + 1,
        r.2.successCount + (if o.okStatus then 1 else 0),
        r.2.errorCount + (if o.okStatus then 0 else 1),
        r.2.totalCost + (if o.okStatus then o.cost else 0)⟩)

/-- C3: the summary the runner returns aggregates exactly its report —
the total cost is the sum of the cost over precisely the OK report rows,
the success and error counts count the OK and non-OK report rows, and
the row count is the number of report rows. -/
theorem campaign_summary_totals (price : Option PriceRecord) (d : ℚ)
    (rows : List (CampaignRow × SendResponse)) :
    (runCampaign price d rows).2.totalCost =
      (((runCampaign price d rows).1.filter (fun o => o.okStatus)).map
        (fun o => o.cost)).sum ∧
    (runCampaign price d rows).2.successCount =
      ((runCampaign price d rows).1.filter (fun o => o.okStatus)).length ∧
    (runCampaign price d rows).2.errorCount =
      ((runCampaign price d rows).1.filter (fun o => !o.okStatus)).length ∧
    (runCampaign price d rows).2.rowsWithRecipient =
      (runCampaign price d rows).1.length := by
  induction rows with
  | nil => exact ⟨rfl, rfl, rfl, rfl⟩
  | cons rr rest ih =>
    obtain ⟨row, resp⟩ := rr
    rcases ih with ⟨ih1, ih2, ih3, ih4⟩
    by_cases hskip : pyStrip row.recipient = ""
    · simp only [runCampaign, if_pos hskip]
      exact ⟨ih1, ih2, ih3, ih4⟩
    · simp only [runCampaign, if_neg hskip]
      by_cases hok : (mkOutcome price d row resp).okStatus = true
      · refine ⟨?_, ?_, ?_, ?_⟩ <;>
          simp [List.filter_cons, hok, ih1, ih2, ih3, ih4] <;> ring
      · refine ⟨?_, ?_, ?_, ?_⟩ <;>
          simp [List.filter_cons, hok, ih1, ih2, ih3, ih4]

/-- C4: for an OK send whose response carries no usable cost (absent or
exactly zero), the recorded cost is the price record value whenever a
record with a positive value exists — and is then nonzero — and is the
configured default when no record exists. -/
theorem cost_fallback_on_ok (price : Option PriceRecord) (d : ℚ)
    (row : CampaignRow) (resp : SendResponse)
    (hok : 200 ≤ resp.httpStatus ∧ resp.httpStatus < 300)
    (hco : resp.rawCost = none ∨ resp.rawCost = some 0) :
    (∀ p : PriceRecord, price = some p → 0 < p.pricePerMessage →
      (mkOutcome price d row resp).cost = p.pricePerMessage ∧
      (mkOutcome price d row resp).cost ≠ 0) ∧
    (price = none → (mkOutcome price d row resp).cost = d) := by
  have hcost : (mkOutcome price d row resp).cost = fallbackCost price d := by
    unfold mkOutcome
    simp only [if_pos hok]
    rcases hco with h | h <;> rw [h] <;> simp [effectiveCost]
  constructor
  · intro p hp hpos
    subst hp
    rw [hcost]
    exact ⟨rfl, ne_of_gt hpos⟩
  · intro hp
    subst hp
    rw [hcost]
    rfl

/-- Campaign row for the C4 witness. -/
def c4row : CampaignRow := ⟨"212600000003", "Carol", ["Carol", "2025-01-03", "300", "ras"]⟩

/-- C4 witness: with a stored record of six thousandths and a default of
zero, an OK response with no cost yields six thousandths, not zero; with
no record and a default of five thousandths, an OK response with a zero
cost yields the default. -/
theorem cost_fallback_witness :
    (mkOutcome (some ⟨6 / 1000, some "USD", none⟩) 0 c4row
        ⟨201, some "id-1", none⟩).cost = 6 / 1000 ∧
    (mkOutcome (some ⟨6 / 1000, some "USD", none⟩) 0 c4row
        ⟨201, some "id-1", none⟩).cost ≠ 0 ∧
    (mkOutcome none (5 / 1000) c4row ⟨200, none, some 0⟩).cost = 5 / 1000 := by
  have h1 := (cost_fallback_on_ok (some ⟨6 / 1000, some "USD", none⟩) 0 c4row
    ⟨201, some "id-1", none⟩ (by constructor <;> norm_num) (Or.inl rfl)).1
    ⟨6 / 1000, some "USD", none⟩ rfl (by norm_num)
  have h2 := (cost_fallback_on_ok none (5 / 1000) c4row ⟨200, none, some 0⟩
    (by constructor <;> norm_num) (Or.inr rfl)).2 rfl
  exact ⟨h1.1, h1.2, h2⟩
